import Mathlib

/-!
Verification of the AiNovelTools CLI assistant (Go) against its specification.

This file shallowly embeds the parts of the repository that the verified
properties are about:

* `internal/tools/manager.go` — the tool registry and `Manager.ExecuteTools`,
  together with the pure cores of the individual tools (`EditFileTool`,
  `SearchTool`, `ExecuteCommandTool`).
* `main.go` — `addSystemMessage`, `processInput` (the orchestration loop with
  its follow-up retry budget), and the session-switching resolution loop.
* the `ai` package (`part_002`) — `Client.SwitchProvider`.

External effects (HTTP chat calls, `os/exec`, `encoding/json`, `regexp`,
`filepath.Match`, the filesystem) are modelled as explicit oracle parameters:
a function argument stands for the outcome of the external call, and the
embedded control flow around it is translated statement by statement from the
Go source.  Go `(T, error)` returns become `T × Option String` or
`Except String T`; Go dynamic `interface{}` values become the `GoVal` type.

The `session` package of the repository is not present under `src/`; the few
session-store operations the verified functions call are modelled from the
spec and are marked `Modelled from the spec:` in their doc comments.
-/

namespace AiNovelTools

/-- Dynamic Go values (`interface{}`) as they appear in decoded JSON parameter
maps: strings, numbers (JSON numbers in the relevant call sites are integral;
Go decodes them as `float64`, modelled here as `Int`), booleans, nested
objects, and null.  Objects are association lists with the first binding of a
key the visible one, matching a Go map with unique keys. -/
inductive GoVal where
  | vstr (s : String)
  | vnum (n : Int)
  | vbool (b : Bool)
  | vobj (fields : List (String × GoVal))
  | vnull

/-- A Go `map[string]interface{}` parameter bag. -/
def Params := List (String × GoVal)

/-- Go map indexing `params[key]`: the first binding of `key`, if any. -/
def pget (params : Params) (key : String) : Option GoVal :=
  (params.find? (fun kv => kv.1 == key)).map (fun kv => kv.2)

/-- Go type assertion `params[key].(string)` (the `ok` form): `some s` exactly
when the key is present and holds a string. -/
def getStr (params : Params) (key : String) : Option String :=
  match pget params key with
  | some (GoVal.vstr s) => some s
  | _ => none

/-- Go type assertion `params[key].(float64)` for the integral numbers that
reach these tools. -/
def getNum (params : Params) (key : String) : Option Int :=
  match pget params key with
  | some (GoVal.vnum n) => some n
  | _ => none

/-- Go `v, _ := params[key].(bool)`: the zero value `false` when the key is
absent or not a boolean. -/
def getBoolD (params : Params) (key : String) : Bool :=
  match pget params key with
  | some (GoVal.vbool b) => b
  | _ => false

/-- Go `v, _ := params[key].(float64)`: the zero value `0` when the key is
absent or not a number. -/
def getNumD (params : Params) (key : String) : Int :=
  match pget params key with
  | some (GoVal.vnum n) => n
  | _ => 0

/-- `ai.ToolCall` (`part_002`): provider-assigned `ID`, invocation kind `Ty`
(the Go field is named `Type`, which Lean reserves), and the `Function`
object holding the `name` and `arguments` entries. -/
structure ToolCall where
  ID : String
  Ty : String
  Function : List (String × GoVal)

/-- `tools.ToolResult` (`manager.go`): Go's `error` field becomes
`Option String` (`none` = nil). -/
structure ToolResult where
  ToolName : String
  Result : String := ""
  Error : Option String := none
  ToolCallID : String := ""

/-- The tool registry: `tools.Manager.tools`, a map from tool name to the
tool's `Execute` behaviour.  A tool takes a parameter bag and returns Go's
`(string, error)` pair; the side effects of the concrete tools are irrelevant
to the registry-level properties, so the entries are arbitrary functions. -/
structure Manager where
  tools : List (String × (Params → String × Option String))

/-- `Manager.GetTool` / the map lookup `m.tools[funcName]`. -/
def Manager.GetTool (m : Manager) (name : String) :
    Option (Params → String × Option String) :=
  (m.tools.find? (fun kv => kv.1 == name)).map (fun kv => kv.2)

/-- The tail of one `ExecuteTools` loop iteration, after the parameter map has
been resolved: look the tool up (`unknown tool` error result when absent,
`manager.go:227-235`) or run it and package its `(result, err)`
(`manager.go:237-243`). -/
def dispatchTool (m : Manager) (funcName : String) (params : Params)
    (callID : String) : ToolResult :=
  match m.GetTool funcName with
  | none =>
      { ToolName := funcName, Error := some ("unknown tool: " ++ funcName),
        ToolCallID := callID }
  | some tool =>
      let out := tool params
      { ToolName := funcName, Result := out.1, Error := out.2,
        ToolCallID := callID }

/-- One iteration of the `ExecuteTools` loop (`manager.go:199-244`): `none`
when the call is skipped by a `continue` (non-`"function"` kind, or the
`name` entry is not a string), otherwise the single `ToolResult` appended for
this call.  `decode` stands for `json.Unmarshal` of a string-typed
`arguments` payload into a parameter map (`manager.go:216`); its error text
is interpolated into the result as in `fmt.Errorf("failed to parse arguments
JSON: %w", err)`. -/
def execCall (m : Manager) (decode : String → Except String Params)
    (call : ToolCall) : Option ToolResult :=
  if call.Ty ≠ "function" then none
  else
    match pget call.Function "name" with
    | some (GoVal.vstr funcName) =>
        (match pget call.Function "arguments" with
         | none => some (dispatchTool m funcName [] call.ID)
         | some (GoVal.vobj args) => some (dispatchTool m funcName args call.ID)
         | some (GoVal.vstr args) =>
             (match decode args with
              | Except.error e =>
                  some { ToolName := funcName,
                         Error := some ("failed to parse arguments JSON: " ++ e),
                         ToolCallID := call.ID }
              | Except.ok p => some (dispatchTool m funcName p call.ID))
         | some _ => some (dispatchTool m funcName [] call.ID))
    | _ => none

/-- `Manager.ExecuteTools` (`manager.go:196-247`): the loop appends at most
one `ToolResult` per call (`execCall`), in input order, and the function
always returns a nil overall error. -/
def Manager.ExecuteTools (m : Manager) (decode : String → Except String Params)
    (toolCalls : List ToolCall) : List ToolResult × Option String :=
  (toolCalls.filterMap (execCall m decode), none)

/-- The two shape checks that guard the loop body (`manager.go:200-206`):
invocation kind `"function"` and a string-typed `name` entry. -/
def wellShaped (call : ToolCall) : Bool :=
  call.Ty == "function" &&
    (match pget call.Function "name" with
     | some (GoVal.vstr _) => true
     | _ => false)

end AiNovelTools

namespace AiNovelTools

/-- `ai.Message` as used by `main.go`: role, content, the tool-call list
carried by assistant messages, and the correlation identifier carried by
tool-role messages.  (`part_002` shows an earlier `ai.Message` without the
last two fields; `main.go` constructs `ai.Message{Role, Content, ToolCalls}`,
and the wire protocol requires the correlation id on tool messages.) -/
structure Message where
  Role : String
  Content : String
  ToolCalls : List ToolCall := []
  ToolCallID : String := ""

/-- The fixed system prompt text of `addSystemMessage` (`main.go:212-327`),
reproduced verbatim from the Go raw string literal. -/
def systemPromptText : String := "你是一个高级AI智能助手，拥有深度思维和强大的工具调用能力。你必须严格按照智能探索流程工作，绝不允许基于假设给出答案。\n\n**🚨 强制探索规则（违反即为失职）：**\n1. **环境优先原则** - 任何涉及文件、项目、内容的请求，必须先用list_files了解当前环境\n2. **禁止假设路径** - 绝对禁止使用/path/to/、示例路径或任何未验证的文件路径\n3. **顺序执行原则** - 必须按照：list_files → read_file(实际路径) → 分析 → 建议 的顺序\n4. **信息完整性** - 必须获取所有相关文件的完整内容后，才能给出分析和建议\n5. **无内容禁言** - 如果无法获取文件内容，不得给出关于文件内容的任何建议\n\n**🧠 核心智能原则：**\n1. **深度分析用户意图** - 理解表面需求背后的真实目标和隐藏需求\n2. **主动建立信息网络** - 识别文件间依赖关系，构建完整知识图谱\n3. **前瞻性思维** - 不仅解决当前问题，还要预见可能的后续需求\n4. **专业领域洞察** - 展现小说创作、项目管理等领域的专业判断力\n\n**🔍 高级推理策略：**\n\n• **文件依赖分析** - 当处理任何文件时，主动分析其与其他文件的关联：\n  - 主角设定 ↔ 门派设定 ↔ 世界观设定 ↔ 情节大纲的一致性\n  - 发现矛盾、缺失或改进机会\n  - 建议最佳的阅读/修改顺序\n\n• **上下文记忆增强** - 在对话中积累和利用关键信息：\n  - 记住用户的创作偏好和风格\n  - 追踪项目进展和修改历史\n  - 识别重复模式和改进机会\n\n• **任务智能分解** - 对复杂请求进行专业级规划：\n  - 将大任务分解为逻辑清晰的子步骤\n  - 优化执行顺序，提高效率\n  - 预判可能的问题点并提前解决\n\n**📚 小说创作专家模式：**\n\n• **创作流程掌控** - 深度理解小说创作各阶段：\n  1. 世界观构建 → 人物设定 → 大纲规划 → 章节创作 → 修改完善\n  2. 主动检查每个阶段的完整性和逻辑性\n  3. 提供针对性的创作建议和灵感\n\n• **内容质量分析** - 不仅读取文件，更要进行深度分析：\n  - 人物性格是否丰满立体\n  - 世界观是否自洽完整\n  - 情节发展是否合理有趣\n  - 文字表达是否优美流畅\n\n• **创意增强建议** - 基于专业经验提供价值建议：\n  - 发现薄弱环节并提出改进方案\n  - 建议新的创意元素和发展方向\n  - 提供行业最佳实践和写作技巧\n\n**⚡ 强制工具调用策略（必须严格执行）：**\n\n• **环境探索模式** - 任何文件相关请求的第一步：\n  1. 🚨 **必须首先**调用 list_files 获取当前目录的所有文件\n  2. 识别相关文件的**真实文件名**和**完整路径**\n  3. 绝对禁止假设文件存在或使用示例路径\n  4. 如果找不到相关文件，必须明确告知用户\n\n• **内容获取模式** - 获取文件内容的严格流程：\n  1. 基于list_files的结果，使用**确切的文件名**调用read_file\n  2. 必须读取**所有相关文件**才能进行分析\n  3. 如果任何文件读取失败，不得对该文件内容进行推测\n  4. 只基于成功读取的文件内容给出建议\n\n• **分析规划模式** - 获得完整信息后才能执行：\n  1. 对读取到的所有文件内容进行交叉分析\n  2. 发现文件间的关联、矛盾和缺失\n  3. 基于**实际内容**而非模板给出具体建议\n  4. 如需使用smart_task_planner，必须基于真实分析结果\n\n• **错误处理模式** - 遇到工具调用失败时：\n  1. 不得忽略错误继续执行\n  2. 必须向用户说明具体的失败原因\n  3. 提供可行的替代方案或请求用户协助\n  4. 绝不基于失败的工具调用结果给出建议\n\n**🎯 高质量响应标准：**\n1. **信息完整性** - 确保获取了所有必要信息再回答\n2. **专业深度** - 提供专家级的分析和建议\n3. **前瞻性** - 预见用户可能的后续需求\n4. **创造性** - 在解决问题的同时提供创新思路\n\n**💡 强制执行示例（严格按此流程）：**\n\n🔍 **用户说\"分析我的小说设定\"**：\n  1. 立即调用list_files了解当前所有文件\n  2. 识别设定相关文件（世界观.txt、主角设定.txt、门派.txt等）\n  3. 逐一调用read_file读取每个设定文件的完整内容\n  4. 基于实际内容进行深度分析和建议\n\n🎯 **用户要\"制定修改计划\"**：\n  1. 必须先list_files → read_file获取现有内容\n  2. 分析实际存在的问题和优势\n  3. 然后才能调用smart_task_planner制定针对性计划\n  4. 给出基于真实情况的具体改进步骤\n\n⚠️ **错误示例（禁止这样做）**：\n  ❌ 直接调用smart_task_planner给出通用建议\n  ❌ 使用假设的文件路径如\"/path/to/世界观.txt\"\n  ❌ 在未读取文件时就分析文件内容\n  ❌ 工具调用失败后继续给出相关建议\n\n**🔮 高级智能特性：**\n• **记忆学习** - 记住用户偏好和工作模式，提供个性化服务\n• **预测分析** - 预见可能的问题和需求，主动提供解决方案  \n• **质量保证** - 每个环节都有质量检查，确保专业水准\n• **持续优化** - 根据反馈不断改进工作方法和建议质量\n\n**🎯 最终要求：**\n你是用户的专业AI顾问，但必须严格遵循以上所有规则！\n- 🚨 每次都要先探索环境，再给出建议\n- 📋 基于真实内容而非假设进行分析\n- ⚡ 展现专家级洞察力，但永远以事实为准\n- 🔍 宁可承认无法获取信息，也不要基于猜测回答\n\n违反以上规则即为失职！务必严格执行！"

/-- The system message prepended by `addSystemMessage` (`main.go:210-328`). -/
def systemMessage : Message := { Role := "system", Content := systemPromptText }

/-- `addSystemMessage` (`main.go:205-330`): return the message list unchanged
when it already starts with a system-role message, otherwise prepend
`systemMessage`. -/
def addSystemMessage (messages : List Message) : List Message :=
  match messages with
  | m :: _ => if m.Role = "system" then messages else systemMessage :: messages
  | [] => [systemMessage]

/-- The guard of `addSystemMessage`:
`len(messages) > 0 && messages[0].Role == "system"`. -/
def startsWithSystem : List Message → Bool
  | [] => false
  | m :: _ => m.Role == "system"

/-- Modelled from the spec: `Session.AddMessage` lives in the `session`
package, which is not under `src/`.  Per the spec (Session: ordered
message sequence, append-only during a run), it appends one message with the
given role and content to the transcript; timestamps are not modelled, and
the session is modelled by its message list. -/
def sessionAddMessage (s : List Message) (role content : String) :
    List Message :=
  s ++ [{ Role := role, Content := content }]

/-- Modelled from the spec: `Session.AddToolResult` lives in the missing
`session` package.  Per the spec (ToolResult; orchestration step 6), each
execution outcome becomes one `tool`-role message carrying the original
correlation identifier, whose text is the success text on success and the
failure description on failure.  `toolResultMessage` is that message. -/
def toolResultMessage (r : ToolResult) : Message :=
  { Role := "tool",
    Content := match r.Error with
               | some e => e
               | none => r.Result,
    ToolCallID := r.ToolCallID }

/-- Modelled from the spec: appending the `tool`-role message built from one
`ToolResult`. -/
def sessionAddToolResult (s : List Message) (r : ToolResult) : List Message :=
  s ++ [toolResultMessage r]

/-- The follow-up retry loop of `processInput` (`main.go:787-799`):
`maxRetries = 2`, attempts at `retry = 0, 1, 2`; the first success wins (the
successful attempt discards its tool calls downstream) and after the loop
the error of the last attempt is the one reported.  The linearly increasing
`time.Sleep` of `retry+1` seconds between failed attempts only affects
timing and is not modelled.  `chat k` stands for the outcome of attempt `k`
of `aiClient.Chat`, an external HTTP call. -/
def runFollowUp (chat : Nat → Except String (String × List ToolCall)) :
    Except String (String × List ToolCall) :=
  match chat 0 with
  | Except.ok r => Except.ok r
  | Except.error _ =>
      match chat 1 with
      | Except.ok r => Except.ok r
      | Except.error _ => chat 2

/-- `processInput` (`main.go:733-813`).  The current session is modelled by
its message list; `chat1` is the outcome of the first `aiClient.Chat` call
and `chatFollowUp k` the outcome of attempt `k` of the follow-up call (both
external HTTP calls); `decode` stands for `json.Unmarshal` as in
`ExecuteTools`.  Returns the session after the turn together with the
turn result (Go `(string, error)`).  Console printing and the
success/failure counters are display-only and not modelled;
`addSystemMessage` is applied to build the wire message list sent to the
provider, which does not change the stored session. -/
def processInput (m : Manager) (decode : String → Except String Params)
    (chat1 : Except String (String × List ToolCall))
    (chatFollowUp : Nat → Except String (String × List ToolCall))
    (session : List Message) (userInput : String) :
    List Message × Except String String :=
  let s1 := sessionAddMessage session "user" userInput
  match chat1 with
  | Except.error e => (s1, Except.error ("AI request failed: " ++ e))
  | Except.ok (response, toolCalls) =>
      if toolCalls.isEmpty then
        (sessionAddMessage s1 "assistant" response, Except.ok response)
      else
        let s2 := s1 ++ [{ Role := "assistant", Content := response,
                           ToolCalls := toolCalls }]
        match m.ExecuteTools decode toolCalls with
        | (_, some e) => (s2, Except.error ("tool execution failed: " ++ e))
        | (toolResults, none) =>
            let s3 := toolResults.foldl sessionAddToolResult s2
            match runFollowUp chatFollowUp with
            | Except.error e =>
                (s3, Except.error
                  ("AI follow-up request failed after 2 retries: " ++ e))
            | Except.ok (resp2, _) =>
                (sessionAddMessage s3 "assistant" resp2, Except.ok resp2)

end AiNovelTools

namespace AiNovelTools

/-- Splitting a character list on a separator character, keeping empty
segments: the semantics of Go `strings.Split` for a one-character separator
(`n` separators yield `n+1` segments; the empty input yields one empty
segment). -/
def splitChar (sep : Char) : List Char → List (List Char)
  | [] => [[]]
  | c :: cs =>
      let r := splitChar sep cs
      if c = sep then [] :: r
      else
        match r with
        | [] => [[c]]
        | w :: ws => (c :: w) :: ws

/-- Go `strings.Split s "\n"`, on strings.  (Implemented on the character
list so that it is structurally recursive and evaluates inside the kernel;
`String.splitOn` is well-founded recursion, which does not reduce.) -/
def goSplitLines (s : String) : List String :=
  (splitChar (Char.ofNat 10) s.toList).map (fun w => String.mk w)

/-- Go `strings.Split` on an arbitrary one-character separator. -/
def goSplitOn (sep : Char) (s : String) : List String :=
  (splitChar sep s.toList).map (fun w => String.mk w)

/-- Whether `sub` occurs as a contiguous sublist of the second argument. -/
def hasSubstring (sub : List Char) : List Char → Bool
  | [] => sub.isEmpty
  | c :: cs => sub.isPrefixOf (c :: cs) || hasSubstring sub cs

/-- Go `strings.Contains s substr`: `substr` occurs in `s` (the empty pattern
is contained in every string). -/
def strContains (s substr : String) : Bool :=
  hasSubstring substr.toList s.toList

/-- Go `strings.ToLower` for the ASCII file extensions and lines it is
applied to here: character-wise lower-casing. -/
def goToLower (s : String) : String :=
  String.mk (s.toList.map Char.toLower)

/-- Go `strings.Fields` on the character list: maximal runs of
non-whitespace characters, in order, with all whitespace discarded. -/
def fieldsGo : List Char → List (List Char)
  | [] => []
  | c :: cs =>
      let rest := fieldsGo cs
      if c.isWhitespace then rest
      else
        match cs with
        | [] => [[c]]
        | d :: _ =>
            if d.isWhitespace then [c] :: rest
            else
              match rest with
              | [] => [[c]]
              | w :: ws => (c :: w) :: ws

/-- Go `strings.Fields` on strings. -/
def goFields (s : String) : List String :=
  (fieldsGo s.toList).map (fun w => String.mk w)

/-- Go `filepath.Base` for the forward-slash paths the search walk produces:
the last path component.  (Go's trailing-slash and empty-path normalisation
is irrelevant here: the walk hands the callback file paths only.) -/
def goBase (p : String) : String :=
  (goSplitOn (Char.ofNat 47) p).getLastD ""

/-- Go `filepath.Ext`: the suffix of the last path component starting at its
final dot, or `""` when the component has no dot. -/
def goExt (p : String) : String :=
  let parts := goSplitOn (Char.ofNat 46) (goBase p)
  if parts.length ≤ 1 then "" else "." ++ parts.getLastD ""

/-- `isTextFile` (`manager.go:510-521`): extension whitelist, applied to the
lower-cased `filepath.Ext` of the path. -/
def isTextFile (filePath : String) : Bool :=
  let ext := goToLower (goExt filePath)
  [".go", ".txt", ".md", ".json", ".yaml", ".yml", ".toml", ".js", ".ts",
   ".py", ".java", ".c", ".cpp", ".h", ".hpp", ".html", ".css", ".xml",
   ".sql", ".sh", ".bat"].contains ext

/-- `ExecuteCommandTool.Execute` (`manager.go:338-358`).  `run prog args`
stands for `exec.CommandContext(ctx, prog, args...).CombinedOutput()`: the
combined stdout+stderr text and the run error (`none` = the command exited
zero).  A run error is appended to the returned text as `\nError: ...` and
the function still returns a nil tool error. -/
def ExecuteCommandTool.Execute
    (run : String → List String → String × Option String)
    (params : Params) : Except String String :=
  match getStr params "command" with
  | none => Except.error "command parameter is required"
  | some command =>
      match goFields command with
      | [] => Except.error "empty command"
      | prog :: rest =>
          let out := run prog rest
          Except.ok (out.1 ++
            (match out.2 with
             | some e => "\nError: " ++ e
             | none => ""))

/-- `EditFileTool.Execute` (`manager.go:529-591`).  `fs path` stands for
`os.ReadFile(path)` (`Except.error` = read error, its text interpolated as
in `fmt.Errorf("failed to read file: %w", err)`).  On success the result is
the Go return string paired with the content handed to `os.WriteFile` (the
write itself is assumed to succeed).  The line-range branch reproduces the
Go `append(lines[:start], newLines...)` aliasing exactly: when
`start + len(newLines) ≤ len(lines)` that append writes `newLines` into the
backing array in place, so the subsequent read of `lines[end+1:]` sees the
overwritten tail (`base` below); otherwise the append reallocates and the
original tail is read. -/
def EditFileTool.Execute (fs : String → Except String String)
    (params : Params) : Except String (String × String) :=
  match getStr params "file_path" with
  | none => Except.error "file_path parameter is required"
  | some filePath =>
      match fs filePath with
      | Except.error e => Except.error ("failed to read file: " ++ e)
      | Except.ok content =>
          let lines := goSplitLines content
          match getStr params "old_text" with
          | some oldText =>
              (match getStr params "new_text" with
               | none =>
                   Except.error "new_text parameter is required when using old_text"
               | some newText =>
                   let newContent :=
                     String.intercalate newText (content.splitOn oldText)
                   Except.ok ("Replaced text in file: " ++ filePath, newContent))
          | none =>
              match getNum params "start_line" with
              | none =>
                  Except.error
                    "either old_text/new_text or start_line/end_line/new_content parameters are required"
              | some startLine =>
                  let endLine :=
                    match getNum params "end_line" with
                    | some e => e
                    | none => startLine
                  match getStr params "new_content" with
                  | none =>
                      Except.error
                        "new_content parameter is required when using line numbers"
                  | some newContent =>
                      let start : Int := startLine - 1
                      let endv : Int := endLine - 1
                      if start < 0 || (lines.length : Int) ≤ start ||
                         endv < 0 || (lines.length : Int) ≤ endv ||
                         endv < start then
                        Except.error ("invalid line range: " ++
                          toString (start + 1) ++ "-" ++ toString (endv + 1))
                      else
                        let newLines := goSplitLines newContent
                        let base :=
                          if start.toNat + newLines.length ≤ lines.length then
                            lines.take start.toNat ++ newLines ++
                              lines.drop (start.toNat + newLines.length)
                          else lines
                        let result := lines.take start.toNat ++ newLines ++
                          base.drop (endv.toNat + 1)
                        Except.ok ("Edited lines " ++ toString startLine ++ "-" ++
                            toString endLine ++ " in file: " ++ filePath,
                          String.intercalate "\n" result)

end AiNovelTools

namespace AiNovelTools

/-- `ai.ModelConfig` (`part_002`). -/
structure ModelConfig where
  APIKey : String
  BaseURL : String
  Model : String
  deriving DecidableEq

/-- The active provider backend held by `ai.Client.provider`.  The Go value
is an `AIProvider` built by `NewZhipuProvider` / `NewDeepseekProvider` from a
`ModelConfig`; only its identity (constructor and configuration) matters
here, the HTTP machinery being external. -/
inductive Backend where
  | zhipu (mc : ModelConfig)
  | deepseek (mc : ModelConfig)
  deriving DecidableEq

/-- `ai.Config` (`part_002`): the active provider name and the per-provider
model configurations (a map, modelled as an association list whose first
binding of a key is the visible one).  `MaxTokens` and `Temperature` are
never read by the embedded code and are omitted. -/
structure AIConfig where
  Provider : String
  Models : List (String × ModelConfig)
  deriving DecidableEq

/-- `ai.Client` (`part_002`): configuration plus the active backend. -/
structure Client where
  config : AIConfig
  provider : Backend
  deriving DecidableEq

/-- The map lookup `c.config.Models[provider]` with its `ok` flag. -/
def AIConfig.lookupModel (cfg : AIConfig) (provider : String) :
    Option ModelConfig :=
  (cfg.Models.find? (fun kv => kv.1 == provider)).map (fun kv => kv.2)

/-- `Client.SwitchProvider` (`part_002:75-97`).  The Go method mutates the
receiver and returns an `error`; here it returns the client state after the
call together with that error.  Note the order of operations in the source:
`c.config.Provider = provider` is assigned *before* the `switch` that
installs the new backend, so the `default: unsupported provider` error path
returns with the provider name already updated. -/
def Client.SwitchProvider (c : Client) (provider : String) :
    Client × Option String :=
  match c.config.lookupModel provider with
  | none => (c, some ("no configuration found for provider: " ++ provider))
  | some modelConfig =>
      if modelConfig.APIKey = "" then
        (c, some ("no API key configured for provider: " ++ provider))
      else
        let c1 : Client :=
          { c with config := { c.config with Provider := provider } }
        if provider = "zhipu" then
          ({ c1 with provider := Backend.zhipu modelConfig }, none)
        else if provider = "deepseek" then
          ({ c1 with provider := Backend.deepseek modelConfig }, none)
        else
          (c1, some ("unsupported provider: " ++ provider))

/-- Modelled from the spec: `session.Session` lives in the `session` package,
which is not under `src/`.  The fields used by `main.go` are the unique
identifier, the human-readable name and the message transcript; timestamps
and the context snapshot are not modelled. -/
structure SessionRec where
  ID : String
  Name : String
  Messages : List Message := []

/-- The session-resolution loop of `switchSession` (`main.go:487-493`): the
first stored session whose full identifier, or whose first-eight-character
short identifier `sess.ID[:8]`, equals the query.  (`sess.ID[:8]` slices
bytes and panics on identifiers shorter than eight bytes; the store's
identifiers are ASCII UUIDs, and the theorems below assume length at least
eight.) -/
def findTargetSession (sessions : List SessionRec) (sessionID : String) :
    Option SessionRec :=
  sessions.find? (fun sess => sess.ID == sessionID || sess.ID.take 8 == sessionID)

/-- `switchSession` (`main.go:479-512`), restricted to its resolution
outcome: the error `未找到会话ID: <id>` is printed when no stored session
matches, otherwise the matched session is switched to.  (The surrounding
store calls `ListSessions` / `SaveSession` / `SwitchSession` live in the
missing `session` package; the stored-session list is taken as input and the
save/switch effects are not modelled.) -/
def switchSessionResolve (sessions : List SessionRec) (sessionID : String) :
    Except String SessionRec :=
  match findTargetSession sessions sessionID with
  | none => Except.error ("未找到会话ID: " ++ sessionID)
  | some s => Except.ok s

end AiNovelTools

namespace AiNovelTools

/-- One entry of the tree walked by the search tool (`filepath.Walk` order):
its path, whether it is a directory, and its content (`none` stands for a
failed `os.ReadFile`, which the walk callback skips). -/
structure SFile where
  path : String
  isDir : Bool := false
  content : Option String := none

/-- One match line as the search tool renders it (`manager.go:471-475`):
`  第<n>行: <line>` with a 1-based line number when requested, otherwise the
trimmed line alone. -/
def renderMatch (showLineNumbers : Bool) (lineNum : Nat) (line : String) :
    String :=
  if showLineNumbers then "  第" ++ toString (lineNum + 1) ++ "行: " ++ line.trim
  else "  " ++ line.trim

/-- The per-file line scan of the search tool (`manager.go:443-482`):
collect rendered match lines in order, stopping once five have been
collected; the scan always runs to the end of the file (or to the fifth
match) regardless of the global result cap. -/
def scanMatchLines (matchLine : String → Bool) (showLineNumbers : Bool) :
    List String → Nat → List String → List String
  | [], _, acc => acc
  | line :: rest, lineNum, acc =>
      if matchLine line then
        let acc2 := acc ++ [renderMatch showLineNumbers lineNum line]
        if 5 ≤ acc2.length then acc2
        else scanMatchLines matchLine showLineNumbers rest (lineNum + 1) acc2
      else scanMatchLines matchLine showLineNumbers rest (lineNum + 1) acc

/-- The skip conditions of the walk callback, in source order
(`manager.go:417-437`): directories, a non-matching file-pattern glob
(`globMatch` stands for `filepath.Match`, whose error Go discards), a
non-text extension, and a failed read. -/
def fileSkipped (filePattern : String) (globMatch : String → String → Bool)
    (f : SFile) : Bool :=
  f.isDir ||
  (filePattern ≠ "" && !(globMatch filePattern (goBase f.path))) ||
  !(isTextFile f.path) ||
  f.content.isNone

/-- A file that produces one search-result entry when the cap has not been
reached: not skipped, and at least one of its lines matches. -/
def isHitFile (matchLine : String → Bool) (filePattern : String)
    (globMatch : String → String → Bool) (f : SFile) : Bool :=
  !(fileSkipped filePattern globMatch f) &&
  (match f.content with
   | some c => (goSplitLines c).any matchLine
   | none => false)

/-- The walk of the search tool (`manager.go:412-492`): the list of
`(file path, rendered match lines)` entries it writes, threading
`foundCount`.  Once `foundCount` reaches the cap, the callback returns
immediately for every further entry (the walk continues but writes
nothing); the file whose first match raised the count to the cap has
already been scanned in full. -/
def searchWalk (matchLine : String → Bool) (showLineNumbers : Bool)
    (filePattern : String) (globMatch : String → String → Bool)
    (maxResults : Int) : List SFile → Nat → List (String × List String)
  | [], _ => []
  | f :: rest, foundCount =>
      if maxResults ≤ (foundCount : Int) then
        searchWalk matchLine showLineNumbers filePattern globMatch maxResults
          rest foundCount
      else if fileSkipped filePattern globMatch f then
        searchWalk matchLine showLineNumbers filePattern globMatch maxResults
          rest foundCount
      else
        match f.content with
        | none =>
            searchWalk matchLine showLineNumbers filePattern globMatch
              maxResults rest foundCount
        | some c =>
            let lines := goSplitLines c
            if lines.any matchLine then
              (f.path, scanMatchLines matchLine showLineNumbers lines 0 []) ::
                searchWalk matchLine showLineNumbers filePattern globMatch
                  maxResults rest (foundCount + 1)
            else
              searchWalk matchLine showLineNumbers filePattern globMatch
                maxResults rest foundCount

/-- The text a single result entry contributes (`manager.go:468` and
`manager.go:484-489`): the file header, each match line, and a blank line. -/
def renderHit (hit : String × List String) : String :=
  "📄 " ++ hit.1 ++ "\n" ++
    String.join (hit.2.map (fun l => l ++ "\n")) ++ "\n"

/-- The fixed header of the search output (`manager.go:404-410`). -/
def searchHeader (query path : String) (useRegex : Bool) : String :=
  "🔍 搜索结果 - 查询: \"" ++ query ++ "\"\n" ++
  (if useRegex then "📝 模式: 正则表达式\n" else "📝 模式: 文本匹配\n") ++
  "📁 路径: " ++ path ++ "\n\n"

/-- The closing summary of the search output (`manager.go:498-505`): a
no-match marker, or the found-file count followed by a truncation note when
the count reached the cap. -/
def searchSummary (foundCount : Nat) (maxResults : Int) : String :=
  if foundCount = 0 then "❌ 未找到匹配的内容\n"
  else
    "✅ 共找到 " ++ toString foundCount ++ " 个文件包含匹配内容" ++
      (if maxResults ≤ (foundCount : Int) then
        "（已限制显示前" ++ toString maxResults ++ "个结果）"
      else "")

/-- The complete output string of one search run, assembled from header,
entries and summary exactly as the single `strings.Builder` of the source
accumulates them. -/
def searchRender (query path : String) (useRegex showLineNumbers : Bool)
    (filePattern : String) (globMatch : String → String → Bool)
    (matchLine : String → Bool) (maxResults : Int) (files : List SFile) :
    String :=
  let hits := searchWalk matchLine showLineNumbers filePattern globMatch
    maxResults files 0
  searchHeader query path useRegex ++ String.join (hits.map renderHit) ++
    searchSummary hits.length maxResults

/-- `SearchTool.Execute` (`manager.go:366-508`).  `regexCompile` stands for
`regexp.Compile` (applied once, to the query with `(?i)` folded in unless
case sensitivity was requested); `globMatch` for `filepath.Match`; `files`
for the tree in walk order.  In plain-text mode a line matches when it
contains the query, both lower-cased unless case sensitivity was requested.
The walk itself never returns an error (the callback always returns nil), so
the `search failed` branch of the source is unreachable and not modelled. -/
def SearchTool.Execute (regexCompile : String → Except String (String → Bool))
    (globMatch : String → String → Bool) (files : List SFile)
    (params : Params) : Except String String :=
  match getStr params "query" with
  | none => Except.error "query parameter is required"
  | some query =>
      let path := (getStr params "path").getD "."
      let filePattern := (getStr params "file_pattern").getD ""
      let useRegex := getBoolD params "use_regex"
      let caseSensitive := getBoolD params "case_sensitive"
      let showLineNumbers := getBoolD params "show_line_numbers"
      let maxResults0 := getNumD params "max_results"
      let maxResults := if maxResults0 = 0 then 50 else maxResults0
      if useRegex then
        match regexCompile ((if caseSensitive then "" else "(?i)") ++ query) with
        | Except.error e => Except.error ("invalid regex pattern: " ++ e)
        | Except.ok re =>
            Except.ok (searchRender query path useRegex showLineNumbers
              filePattern globMatch (fun line => re line) maxResults files)
      else
        Except.ok (searchRender query path useRegex showLineNumbers
          filePattern globMatch
          (fun line =>
            strContains (if caseSensitive then line else goToLower line)
              (if caseSensitive then query else goToLower query))
          maxResults files)

end AiNovelTools



namespace AiNovelTools

/-- A concrete one-tool registry used by the concrete-input theorems below. -/
def witnessManager : Manager :=
  ⟨[("read_file", fun _ => ("", some "file_path parameter is required"))]⟩

/-- A concrete stand-in for `json.Unmarshal` used by the concrete-input
theorems below: only the payload `"ok"` decodes (to the empty map). -/
def witnessDecode : String → Except String Params :=
  fun s => if s = "ok" then Except.ok [] else Except.error "bad"

def c1Call : ToolCall :=
  { ID := "call-1", Ty := "function",
    Function := [("name", GoVal.vstr "ghost_tool")] }

def c3Call : ToolCall :=
  { ID := "call-2", Ty := "function",
    Function := [("name", GoVal.vstr "read_file"),
                 ("arguments", GoVal.vstr "not-json")] }

def c2Call : ToolCall :=
  { ID := "call-3", Ty := "function",
    Function := [("name", GoVal.vstr "ghost_tool")] }

def c7Client : Client :=
  { config :=
      { Provider := "zhipu",
        Models := [("zhipu", { APIKey := "k1", BaseURL := "u1", Model := "glm-4" }),
                   ("openai", { APIKey := "k2", BaseURL := "u2", Model := "gpt" })] },
    provider := Backend.zhipu { APIKey := "k1", BaseURL := "u1", Model := "glm-4" } }

def c8Session : SessionRec :=
  { ID := "abcdef12-9999-4242-8888-feedfacecafe", Name := "novel draft" }

/-- The single entry a hit file contributes: its path and its rendered match
lines, from a scan of the file's full line list. -/
def mkSearchHit (matcher : String → Bool) (showLineNumbers : Bool)
    (f : SFile) : String × List String :=
  (f.path, scanMatchLines matcher showLineNumbers
    (goSplitLines (f.content.getD "")) 0 [])

/-- One hundred matching single-line text files, in walk order. -/
def c6Files : List SFile :=
  (List.range 100).map (fun i =>
    { path := "f" ++ toString i ++ ".txt", isDir := false, content := some "q" })

end AiNovelTools

namespace AiNovelTools

theorem dispatchTool_unknown (m : Manager) (funcName : String) (p : Params)
    (callID : String) (hreg : m.GetTool funcName = none) :
    dispatchTool m funcName p callID =
      { ToolName := funcName, Result := "",
        Error := some ("unknown tool: " ++ funcName), ToolCallID := callID } := by
  unfold dispatchTool
  rw [hreg]

theorem execCall_isSome_eq (m : Manager) (decode : String → Except String Params)
    (c : ToolCall) : (execCall m decode c).isSome = wellShaped c := by
  unfold execCall wellShaped
  by_cases hty : c.Ty = "function"
  · simp only [hty, ne_eq, not_true_eq_false, if_false, beq_self_eq_true,
      Bool.true_and]
    cases hv : pget c.Function "name" with
    | none => simp
    | some v =>
        cases v with
        | vstr s =>
            cases ha : pget c.Function "arguments" with
            | none => simp
            | some w =>
                cases w with
                | vstr args => cases hd : decode args <;> simp [hd]
                | vnum n => simp
                | vbool b => simp
                | vobj fields => simp
                | vnull => simp
        | vnum n => simp
        | vbool b => simp
        | vobj fields => simp
        | vnull => simp
  · simp [hty]

/-- C10: for every input list of tool calls, `ExecuteTools` returns a nil
overall error; its result list is the in-order `filterMap` of the per-call
step, so it contains exactly one entry for each call that produces one, in
input order; and the per-call step produces an entry precisely when the
call's invocation kind is `"function"` and its function-name field is a
string — calls that fail either shape check are skipped silently, producing
no `ToolResult`. -/
theorem ExecuteTools_shape (m : Manager) (decode : String → Except String Params)
    (calls : List ToolCall) :
    (m.ExecuteTools decode calls).2 = none ∧
    (m.ExecuteTools decode calls).1 = calls.filterMap (execCall m decode) ∧
    ∀ c : ToolCall, (execCall m decode c).isSome = wellShaped c :=
  ⟨rfl, rfl, fun c => execCall_isSome_eq m decode c⟩

/-- C1: every tool call of invocation kind `"function"` whose function name
is a string that is not registered in the manager contributes to the
`ExecuteTools` result list a `ToolResult` with a non-nil error, carrying the
call's correlation identifier and its function name — such a call is never
dropped.  (When the call's string `arguments` payload additionally fails to
decode, the contributed result is the decode-error one, which also has a
non-nil error and the same correlation identifier.) -/
theorem ExecuteTools_unknown_tool (m : Manager)
    (decode : String → Except String Params) (calls : List ToolCall)
    (call : ToolCall) (funcName : String)
    (hmem : call ∈ calls) (hty : call.Ty = "function")
    (hname : pget call.Function "name" = some (GoVal.vstr funcName))
    (hreg : m.GetTool funcName = none) :
    ∃ r ∈ (m.ExecuteTools decode calls).1,
      r.ToolCallID = call.ID ∧ r.Error.isSome ∧ r.ToolName = funcName := by
  have hstep : ∃ r, execCall m decode call = some r ∧
      r.ToolCallID = call.ID ∧ r.Error.isSome ∧ r.ToolName = funcName := by
    unfold execCall
    simp only [hty, ne_eq, not_true_eq_false, if_false, hname]
    cases ha : pget call.Function "arguments" with
    | none =>
        refine ⟨dispatchTool m funcName [] call.ID, rfl, ?_⟩
        rw [dispatchTool_unknown m funcName [] call.ID hreg]
        exact ⟨rfl, rfl, rfl⟩
    | some w =>
        cases w with
        | vstr args =>
            cases hd : decode args with
            | error e =>
                refine ⟨{ ToolName := funcName, Result := "",
                          Error := some ("failed to parse arguments JSON: " ++ e),
                          ToolCallID := call.ID }, by simp [hd], rfl, rfl, rfl⟩
            | ok p =>
                refine ⟨dispatchTool m funcName p call.ID, by simp [hd], ?_⟩
                rw [dispatchTool_unknown m funcName p call.ID hreg]
                exact ⟨rfl, rfl, rfl⟩
        | vnum n =>
            refine ⟨dispatchTool m funcName [] call.ID, rfl, ?_⟩
            rw [dispatchTool_unknown m funcName [] call.ID hreg]
            exact ⟨rfl, rfl, rfl⟩
        | vbool b =>
            refine ⟨dispatchTool m funcName [] call.ID, rfl, ?_⟩
            rw [dispatchTool_unknown m funcName [] call.ID hreg]
            exact ⟨rfl, rfl, rfl⟩
        | vobj fields =>
            refine ⟨dispatchTool m funcName fields call.ID, rfl, ?_⟩
            rw [dispatchTool_unknown m funcName fields call.ID hreg]
            exact ⟨rfl, rfl, rfl⟩
        | vnull =>
            refine ⟨dispatchTool m funcName [] call.ID, rfl, ?_⟩
            rw [dispatchTool_unknown m funcName [] call.ID hreg]
            exact ⟨rfl, rfl, rfl⟩
  obtain ⟨r, hr, h1, h2, h3⟩ := hstep
  exact ⟨r, List.mem_filterMap.mpr ⟨call, hmem, hr⟩, h1, h2, h3⟩

/-- C3: for a function-typed call whose `arguments` field is a JSON-encoded
string, the string is decoded into a parameter map before dispatch: on
decode success the tool dispatch receives exactly the decoded map, and on
decode failure the call yields the decode-error `ToolResult` — non-nil
error, empty result text, the call's correlation identifier — which appears
in the `ExecuteTools` result list; the per-call step then never reaches the
tool lookup or execution, so the tool is not executed for that call. -/
theorem ExecuteTools_string_arguments (m : Manager)
    (decode : String → Except String Params) (calls : List ToolCall)
    (call : ToolCall) (funcName argStr : String)
    (hmem : call ∈ calls) (hty : call.Ty = "function")
    (hname : pget call.Function "name" = some (GoVal.vstr funcName))
    (hargs : pget call.Function "arguments" = some (GoVal.vstr argStr)) :
    (∀ p, decode argStr = Except.ok p →
        execCall m decode call = some (dispatchTool m funcName p call.ID)) ∧
    (∀ e, decode argStr = Except.error e →
        execCall m decode call =
          some { ToolName := funcName, Result := "",
                 Error := some ("failed to parse arguments JSON: " ++ e),
                 ToolCallID := call.ID } ∧
        ({ ToolName := funcName, Result := "",
           Error := some ("failed to parse arguments JSON: " ++ e),
           ToolCallID := call.ID } : ToolResult) ∈
          (m.ExecuteTools decode calls).1) := by
  constructor
  · intro p hp
    unfold execCall
    simp only [hty, ne_eq, not_true_eq_false, if_false, hname]
    rw [hargs]
    simp [hp]
  · intro e he
    have hcall : execCall m decode call =
        some { ToolName := funcName, Result := "",
               Error := some ("failed to parse arguments JSON: " ++ e),
               ToolCallID := call.ID } := by
      unfold execCall
      simp only [hty, ne_eq, not_true_eq_false, if_false, hname]
      rw [hargs]
      simp [he]
    exact ⟨hcall, List.mem_filterMap.mpr ⟨call, hmem, hcall⟩⟩

end AiNovelTools

namespace AiNovelTools

theorem ExecuteTools_unknown_tool_witness :
    c1Call ∈ [c1Call] ∧ c1Call.Ty = "function" ∧
    pget c1Call.Function "name" = some (GoVal.vstr "ghost_tool") ∧
    witnessManager.GetTool "ghost_tool" = none ∧
    ∃ r ∈ (witnessManager.ExecuteTools witnessDecode [c1Call]).1,
      r.ToolCallID = c1Call.ID ∧ r.Error.isSome ∧ r.ToolName = "ghost_tool" :=
  ⟨List.mem_singleton.mpr rfl, rfl, rfl, rfl,
   ExecuteTools_unknown_tool witnessManager witnessDecode [c1Call] c1Call
     "ghost_tool" (List.mem_singleton.mpr rfl) rfl rfl rfl⟩

theorem ExecuteTools_string_arguments_witness :
    c3Call ∈ [c3Call] ∧ c3Call.Ty = "function" ∧
    pget c3Call.Function "name" = some (GoVal.vstr "read_file") ∧
    pget c3Call.Function "arguments" = some (GoVal.vstr "not-json") ∧
    witnessDecode "not-json" = Except.error "bad" ∧
    (execCall witnessManager witnessDecode c3Call =
       some { ToolName := "read_file", Result := "",
              Error := some ("failed to parse arguments JSON: " ++ "bad"),
              ToolCallID := c3Call.ID } ∧
     ({ ToolName := "read_file", Result := "",
        Error := some ("failed to parse arguments JSON: " ++ "bad"),
        ToolCallID := c3Call.ID } : ToolResult) ∈
       (witnessManager.ExecuteTools witnessDecode [c3Call]).1) :=
  ⟨List.mem_singleton.mpr rfl, rfl, rfl, rfl, rfl,
   (ExecuteTools_string_arguments witnessManager witnessDecode [c3Call] c3Call
      "read_file" "not-json" (List.mem_singleton.mpr rfl) rfl rfl rfl).2
     "bad" rfl⟩

/-- C4: the system-message-prepend step is idempotent on every message list,
the prepended message has the `system` role, and whenever the input is empty
or does not already start with a system-role message, the output is exactly
`systemMessage` followed by the unchanged input — one system message at
position zero and no duplication. -/
theorem addSystemMessage_idempotent (ms : List Message) :
    addSystemMessage (addSystemMessage ms) = addSystemMessage ms ∧
    systemMessage.Role = "system" ∧
    (startsWithSystem ms = false →
      addSystemMessage ms = systemMessage :: ms) := by
  refine ⟨?_, rfl, ?_⟩
  · cases ms with
    | nil => rfl
    | cons m rest =>
        by_cases h : m.Role = "system"
        · simp [addSystemMessage, h]
        · simp [addSystemMessage, h, systemMessage]
  · intro h
    cases ms with
    | nil => rfl
    | cons m rest =>
        have hm : ¬ m.Role = "system" := by
          simpa [startsWithSystem] using h
        simp [addSystemMessage, hm]

theorem addSystemMessage_idempotent_witness :
    startsWithSystem [] = false ∧
    addSystemMessage (addSystemMessage []) = addSystemMessage [] ∧
    addSystemMessage [] = [systemMessage] :=
  ⟨rfl, (addSystemMessage_idempotent []).1,
   (addSystemMessage_idempotent []).2.2 rfl⟩

theorem foldl_sessionAddToolResult (rs : List ToolResult) (s : List Message) :
    rs.foldl sessionAddToolResult s = s ++ rs.map toolResultMessage := by
  induction rs generalizing s with
  | nil => simp
  | cons r rest ih => simp [sessionAddToolResult, ih]

end AiNovelTools

namespace AiNovelTools

/-- C2 (amended): when the first provider call requests at least one tool
call and the follow-up call fails on all of 1 initial + 2 retry attempts
(the sleeps between attempts grow linearly and do not affect the result),
`processInput` returns an error that names the retry count 2 and carries the
last attempt's failure; the follow-up answer is *not* appended: the session
after the turn is exactly the user message, the assistant message carrying
the raw tool-call list (appended before tool execution, as step 6 of the
orchestration requires), and one tool-role message per tool result — so the
only assistant-role message appended during the turn is the tool-call
carrier, and nothing follows the tool results. -/
theorem processInput_retry_exhaustion (m : Manager)
    (decode : String → Except String Params)
    (chatFollowUp : Nat → Except String (String × List ToolCall))
    (session : List Message) (userInput response : String)
    (toolCalls : List ToolCall) (e0 e1 e2 : String)
    (hne : toolCalls ≠ [])
    (h0 : chatFollowUp 0 = Except.error e0)
    (h1 : chatFollowUp 1 = Except.error e1)
    (h2 : chatFollowUp 2 = Except.error e2) :
    (processInput m decode (Except.ok (response, toolCalls)) chatFollowUp
        session userInput).2 =
      Except.error ("AI follow-up request failed after 2 retries: " ++ e2) ∧
    (processInput m decode (Except.ok (response, toolCalls)) chatFollowUp
        session userInput).1 =
      session ++ [{ Role := "user", Content := userInput }] ++
        [{ Role := "assistant", Content := response, ToolCalls := toolCalls }] ++
        ((m.ExecuteTools decode toolCalls).1).map toolResultMessage ∧
    (((processInput m decode (Except.ok (response, toolCalls)) chatFollowUp
        session userInput).1.drop session.length).countP
      (fun msg => msg.Role == "assistant")) = 1 := by
  have hrun : runFollowUp chatFollowUp = Except.error e2 := by
    unfold runFollowUp
    rw [h0, h1, h2]
  cases toolCalls with
  | nil => exact absurd rfl hne
  | cons c cs =>
      have hsession :
          (processInput m decode (Except.ok (response, c :: cs)) chatFollowUp
              session userInput).1 =
            session ++ [{ Role := "user", Content := userInput }] ++
              [{ Role := "assistant", Content := response,
                 ToolCalls := c :: cs }] ++
              ((m.ExecuteTools decode (c :: cs)).1).map toolResultMessage := by
        simp only [processInput, Manager.ExecuteTools, List.isEmpty_cons,
          Bool.false_eq_true, if_false, hrun, sessionAddMessage,
          foldl_sessionAddToolResult, List.append_assoc]
      refine ⟨?_, hsession, ?_⟩
      · simp only [processInput, Manager.ExecuteTools, List.isEmpty_cons,
          Bool.false_eq_true, if_false, hrun, sessionAddMessage]
      · rw [hsession]
        have hdrop :
            (session ++ [({ Role := "user", Content := userInput } : Message)] ++
              [({ Role := "assistant", Content := response,
                  ToolCalls := c :: cs } : Message)] ++
              ((m.ExecuteTools decode (c :: cs)).1).map toolResultMessage).drop
              session.length =
            [({ Role := "user", Content := userInput } : Message)] ++
              [({ Role := "assistant", Content := response,
                  ToolCalls := c :: cs } : Message)] ++
              ((m.ExecuteTools decode (c :: cs)).1).map toolResultMessage := by
          rw [List.append_assoc, List.append_assoc,
            List.drop_left' rfl, ← List.append_assoc]
        rw [hdrop]
        have hmap : List.countP (fun msg : Message => msg.Role == "assistant")
            (((m.ExecuteTools decode (c :: cs)).1).map toolResultMessage) = 0 := by
          apply List.countP_eq_zero.mpr
          intro a ha
          obtain ⟨r,
            _, rfl⟩ := List.mem_map.mp ha
          simp [toolResultMessage]
        rw [List.countP_append, List.countP_append, hmap]
        simp [List.countP_cons]
end AiNovelTools

namespace AiNovelTools

/-- C2 is false as stated: in a concrete turn whose first provider call
requests one tool call and whose follow-up call fails on all of 1 initial +
2 retry attempts, `processInput` does return the error naming the retry
count 2 — but the session after the turn contains one assistant-role
message appended during the turn (the one carrying the tool calls, appended
before tool execution), refuting the claim that no assistant message is
appended to the session for that turn. -/
theorem processInput_retry_counterexample :
    (processInput witnessManager witnessDecode (Except.ok ("", [c2Call]))
        (fun _ => Except.error "boom") [] "hi").2 =
      Except.error "AI follow-up request failed after 2 retries: boom" ∧
    ((processInput witnessManager witnessDecode (Except.ok ("", [c2Call]))
        (fun _ => Except.error "boom") [] "hi").1.countP
      (fun msg => msg.Role == "assistant")) = 1 := by
  constructor <;> rfl

theorem processInput_retry_exhaustion_witness :
    ([c2Call] : List ToolCall) ≠ [] ∧
    (processInput witnessManager witnessDecode (Except.ok ("", [c2Call]))
        (fun _ => Except.error "boom") [] "hi").2 =
      Except.error ("AI follow-up request failed after 2 retries: " ++ "boom") :=
  ⟨by simp,
   (processInput_retry_exhaustion witnessManager witnessDecode
      (fun _ => Except.error "boom") [] "hi" "" [c2Call] "boom" "boom" "boom"
      (by simp) rfl rfl rfl).1⟩

end AiNovelTools

namespace AiNovelTools

/-- C5: line-range editing.  (1) On file content `"a\nb\nc\n"`, editing lines
2–2 with new content `"B"` succeeds and writes `"a\nB\nc\n"`.  (2) A request
with `start_line = 3, end_line = 1` (inverted range) fails with the range
error, for every file the tool can read.  (3) In general, whenever the
1-based range `[start_line, end_line]` is inverted or falls outside
`1 .. L`, where `L` is the number of segments `strings.Split` produces for
the file content (for content ending in a newline this includes the empty
segment after the final newline, which is the code's notion of the file's
lines), the tool returns the range error and does not report success. -/
theorem EditFileTool_line_range :
    (EditFileTool.Execute (fun _ => Except.ok "a\nb\nc\n")
        [("file_path", GoVal.vstr "f.txt"), ("start_line", GoVal.vnum 2),
         ("end_line", GoVal.vnum 2), ("new_content", GoVal.vstr "B")] =
      Except.ok ("Edited lines 2-2 in file: f.txt", "a\nB\nc\n")) ∧
    (∀ (fs : String → Except String String) (path content nc : String),
       fs path = Except.ok content →
       EditFileTool.Execute fs
           [("file_path", GoVal.vstr path), ("start_line", GoVal.vnum 3),
            ("end_line", GoVal.vnum 1), ("new_content", GoVal.vstr nc)] =
         Except.error "invalid line range: 3-1") ∧
    (∀ (fs : String → Except String String) (path content nc : String)
       (startLine endLine : Int),
       fs path = Except.ok content →
       (startLine < 1 ∨ ((goSplitLines content).length : Int) < startLine ∨
        endLine < 1 ∨ ((goSplitLines content).length : Int) < endLine ∨
        endLine < startLine) →
       EditFileTool.Execute fs
           [("file_path", GoVal.vstr path), ("start_line", GoVal.vnum startLine),
            ("end_line", GoVal.vnum endLine), ("new_content", GoVal.vstr nc)] =
         Except.error ("invalid line range: " ++ toString startLine ++ "-" ++
           toString endLine)) := by
  have general : ∀ (fs : String → Except String String)
      (path content nc : String) (startLine endLine : Int),
      fs path = Except.ok content →
      (startLine < 1 ∨ ((goSplitLines content).length : Int) < startLine ∨
       endLine < 1 ∨ ((goSplitLines content).length : Int) < endLine ∨
       endLine < startLine) →
      EditFileTool.Execute fs
          [("file_path", GoVal.vstr path), ("start_line", GoVal.vnum startLine),
           ("end_line", GoVal.vnum endLine), ("new_content", GoVal.vstr nc)] =
        Except.error ("invalid line range: " ++ toString startLine ++ "-" ++
          toString endLine) := by
    intro fs path content nc startLine endLine hfs hout
    unfold EditFileTool.Execute
    simp only [show getStr
        [("file_path", GoVal.vstr path), ("start_line", GoVal.vnum startLine),
         ("end_line", GoVal.vnum endLine), ("new_content", GoVal.vstr nc)]
        "file_path" = some path from rfl,
      show getStr
        [("file_path", GoVal.vstr path), ("start_line", GoVal.vnum startLine),
         ("end_line", GoVal.vnum endLine), ("new_content", GoVal.vstr nc)]
        "old_text" = none from rfl,
      show getNum
        [("file_path", GoVal.vstr path), ("start_line", GoVal.vnum startLine),
         ("end_line", GoVal.vnum endLine), ("new_content", GoVal.vstr nc)]
        "start_line" = some startLine from rfl,
      show getNum
        [("file_path", GoVal.vstr path), ("start_line", GoVal.vnum startLine),
         ("end_line", GoVal.vnum endLine), ("new_content", GoVal.vstr nc)]
        "end_line" = some endLine from rfl,
      show getStr
        [("file_path", GoVal.vstr path), ("start_line", GoVal.vnum startLine),
         ("end_line", GoVal.vnum endLine), ("new_content", GoVal.vstr nc)]
        "new_content" = some nc from rfl,
      hfs]
    have hc : (decide (startLine - 1 < 0) ||
        decide (((goSplitLines content).length : Int) ≤ startLine - 1) ||
        decide (endLine - 1 < 0) ||
        decide (((goSplitLines content).length : Int) ≤ endLine - 1) ||
        decide (endLine - 1 < startLine - 1)) = true := by
      simp only [Bool.or_eq_true, decide_eq_true_eq]
      omega
    rw [if_pos hc, Int.sub_add_cancel, Int.sub_add_cancel]
  refine ⟨rfl, ?_, general⟩
  intro fs path content nc hfs
  exact general fs path content nc 3 1 hfs
    (Or.inr (Or.inr (Or.inr (Or.inr (by norm_num)))))

theorem EditFileTool_line_range_witness :
    ((fun _ : String => Except.ok "a\nb\nc\n") "g.txt" =
      (Except.ok "a\nb\nc\n" : Except String String)) ∧
    ((5 : Int) < 1 ∨ ((goSplitLines "a\nb\nc\n").length : Int) < 5 ∨
      (5 : Int) < 1 ∨ ((goSplitLines "a\nb\nc\n").length : Int) < 5 ∨
      (5 : Int) < 5) ∧
    EditFileTool.Execute (fun _ => Except.ok "a\nb\nc\n")
        [("file_path", GoVal.vstr "g.txt"), ("start_line", GoVal.vnum 5),
         ("end_line", GoVal.vnum 5), ("new_content", GoVal.vstr "X")] =
      Except.error ("invalid line range: " ++ toString (5 : Int) ++ "-" ++
        toString (5 : Int)) :=
  ⟨rfl, Or.inr (Or.inl (by decide)),
   (EditFileTool_line_range).2.2 (fun _ => Except.ok "a\nb\nc\n") "g.txt"
     "a\nb\nc\n" "X" 5 5 rfl (Or.inr (Or.inl (by decide)))⟩

end AiNovelTools

namespace AiNovelTools

/-- C7 is false as stated: requesting a provider that *does* have a
configuration entry with a non-empty API key but is neither `zhipu` nor
`deepseek` hits the `default` arm of the switch, which returns an error —
yet the client's state has already changed, because `c.config.Provider`
is assigned before the switch.  Concretely, switching the client above to
`"openai"` errors while leaving the active-provider field set to
`"openai"` instead of the original `"zhipu"`. -/
theorem SwitchProvider_counterexample :
    ((c7Client.SwitchProvider "openai").2 =
      some "unsupported provider: openai") ∧
    (c7Client.SwitchProvider "openai").1.config.Provider = "openai" ∧
    c7Client.config.Provider = "zhipu" ∧
    (c7Client.SwitchProvider "openai").1 ≠ c7Client := by
  refine ⟨rfl, rfl, rfl, ?_⟩
  intro h
  have h2 : (c7Client.SwitchProvider "openai").1.config.Provider = "zhipu" := by
    rw [h]
    rfl
  rw [show (c7Client.SwitchProvider "openai").1.config.Provider = "openai"
    from rfl] at h2
  exact absurd h2 (by decide)

/-- C7 (amended): `SwitchProvider` returns an error when the requested
provider has no configuration entry or an empty API key, and in those two
error cases the client's state (active provider and backend) is unchanged.
When the requested provider is configured with a non-empty key but is
neither `"zhipu"` nor `"deepseek"`, it also returns an error, with the
backend unchanged but the config's active-provider field already set to the
requested name.  When it succeeds (`"zhipu"` or `"deepseek"`, configured,
non-empty key), the error is nil and the active backend is replaced by one
built from the requested provider's configuration. -/
theorem SwitchProvider_spec (c : Client) (provider : String) :
    (c.config.lookupModel provider = none →
       c.SwitchProvider provider =
         (c, some ("no configuration found for provider: " ++ provider))) ∧
    (∀ mc, c.config.lookupModel provider = some mc → mc.APIKey = "" →
       c.SwitchProvider provider =
         (c, some ("no API key configured for provider: " ++ provider))) ∧
    (∀ mc, c.config.lookupModel provider = some mc → mc.APIKey ≠ "" →
       provider = "zhipu" →
       c.SwitchProvider provider =
         ({ config := { c.config with Provider := provider },
            provider := Backend.zhipu mc }, none)) ∧
    (∀ mc, c.config.lookupModel provider = some mc → mc.APIKey ≠ "" →
       provider = "deepseek" →
       c.SwitchProvider provider =
         ({ config := { c.config with Provider := provider },
            provider := Backend.deepseek mc }, none)) ∧
    (∀ mc, c.config.lookupModel provider = some mc → mc.APIKey ≠ "" →
       provider ≠ "zhipu" → provider ≠ "deepseek" →
       c.SwitchProvider provider =
         ({ config := { c.config with Provider := provider },
            provider := c.provider },
          some ("unsupported provider: " ++ provider))) := by
  refine ⟨?_, ?_, ?_, ?_, ?_⟩
  · intro h
    unfold Client.SwitchProvider
    rw [h]
  · intro mc hmc hkey
    unfold Client.SwitchProvider
    rw [hmc]
    simp [hkey]
  · intro mc hmc hkey hz
    unfold Client.SwitchProvider
    rw [hmc]
    simp [hkey, hz]
  · intro mc hmc hkey hd
    unfold Client.SwitchProvider
    rw [hmc]
    simp [hkey, hd]
  · intro mc hmc hkey hz hd
    unfold Client.SwitchProvider
    rw [hmc]
    simp [hkey, hz, hd]

theorem SwitchProvider_spec_witness :
    c7Client.config.lookupModel "claude" = none ∧
    c7Client.SwitchProvider "claude" =
      (c7Client, some ("no configuration found for provider: " ++ "claude")) :=
  ⟨rfl, (SwitchProvider_spec c7Client "claude").1 rfl⟩

/-- C8: resolving a session identifier.  Whenever some stored session's full
identifier or first-eight-character short identifier equals the query, and
that session is the unique such match (as with UUID identifiers), session
switching resolves the query to exactly that session; more generally a match
always resolves to a stored session that matches.  When no stored session
matches, the resolution reports the `未找到会话ID` error.  (All stored
identifiers are assumed to be at least eight characters long, since the Go
byte-slice `sess.ID[:8]` panics otherwise.) -/
theorem switchSession_resolution (sessions : List SessionRec) (q : String)
    (hlen : ∀ t ∈ sessions, 8 ≤ t.ID.length) :
    (∀ s ∈ sessions, (s.ID = q ∨ s.ID.take 8 = q) →
       (∀ t ∈ sessions, (t.ID = q ∨ t.ID.take 8 = q) → t = s) →
       switchSessionResolve sessions q = Except.ok s) ∧
    (∀ s ∈ sessions, (s.ID = q ∨ s.ID.take 8 = q) →
       ∃ r, switchSessionResolve sessions q = Except.ok r ∧ r ∈ sessions ∧
         (r.ID = q ∨ r.ID.take 8 = q)) ∧
    ((∀ t ∈ sessions, ¬(t.ID = q ∨ t.ID.take 8 = q)) →
       switchSessionResolve sessions q =
         Except.error ("未找到会话ID: " ++ q)) := by
  have hpred : ∀ t : SessionRec,
      ((t.ID == q || t.ID.take 8 == q) = true) ↔ (t.ID = q ∨ t.ID.take 8 = q) := by
    intro t
    simp [Bool.or_eq_true]
  refine ⟨?_, ?_, ?_⟩
  · intro s hs hmatch huniq
    have hsome : ∃ r, findTargetSession sessions q = some r := by
      unfold findTargetSession
      have h := (@List.find?_isSome SessionRec sessions
        (fun sess => sess.ID == q || sess.ID.take 8 == q)).mpr
        ⟨s, hs, (hpred s).mpr hmatch⟩
      exact Option.isSome_iff_exists.mp h
    obtain ⟨r, hr⟩ := hsome
    have hrfind : List.find? (fun sess => sess.ID == q || sess.ID.take 8 == q)
        sessions = some r := hr
    have hrpred := List.find?_some hrfind
    have hrmem := List.mem_of_find?_eq_some hrfind
    have hrs : r = s := huniq r hrmem ((hpred r).mp hrpred)
    unfold switchSessionResolve
    rw [hr, hrs]
  · intro s hs hmatch
    have hsome : ∃ r, findTargetSession sessions q = some r := by
      unfold findTargetSession
      have h := (@List.find?_isSome SessionRec sessions
        (fun sess => sess.ID == q || sess.ID.take 8 == q)).mpr
        ⟨s, hs, (hpred s).mpr hmatch⟩
      exact Option.isSome_iff_exists.mp h
    obtain ⟨r, hr⟩ := hsome
    have hrfind : List.find? (fun sess => sess.ID == q || sess.ID.take 8 == q)
        sessions = some r := hr
    have hok : switchSessionResolve sessions q = Except.ok r := by
      unfold switchSessionResolve
      rw [hr]
    have hrpred := List.find?_some hrfind
    have hrmem := List.mem_of_find?_eq_some hrfind
    exact ⟨r, hok, hrmem, (hpred r).mp hrpred⟩
  · intro hnone
    have hfind : findTargetSession sessions q = none := by
      unfold findTargetSession
      exact (@List.find?_eq_none SessionRec
        (fun sess => sess.ID == q || sess.ID.take 8 == q) sessions).mpr
        (fun t ht hb => hnone t ht ((hpred t).mp hb))
    unfold switchSessionResolve
    rw [hfind]

theorem switchSession_resolution_witness :
    (∀ t ∈ [c8Session], 8 ≤ t.ID.length) ∧
    c8Session ∈ [c8Session] ∧
    (c8Session.ID = "abcdef12" ∨ c8Session.ID.take 8 = "abcdef12") ∧
    switchSessionResolve [c8Session] "abcdef12" = Except.ok c8Session :=
  ⟨by decide, List.mem_singleton.mpr rfl, Or.inr (by decide),
   (switchSession_resolution [c8Session] "abcdef12" (by decide)).1 c8Session
     (List.mem_singleton.mpr rfl) (Or.inr (by decide))
     (fun t ht _ => List.mem_singleton.mp ht)⟩

end AiNovelTools

namespace AiNovelTools

/-- C9: the execute-shell tool.  For every command string, the argv passed to
the process runner is exactly the whitespace-split field list of the command
(no shell metacharacter interpretation — the first field is the program, the
rest its arguments); the runner's combined stdout+stderr text is returned
with a nil tool error even when the command fails, the failure description
being appended to the text as `\nError: ...`; and a command string that is
empty or all whitespace (no fields) fails with the `empty command` error
before any process is started. -/
theorem ExecuteCommandTool_spec
    (run : String → List String → String × Option String) (command : String) :
    (∀ prog rest, goFields command = prog :: rest →
       ExecuteCommandTool.Execute run [("command", GoVal.vstr command)] =
         Except.ok ((run prog rest).1 ++
           (match (run prog rest).2 with
            | some e => "\nError: " ++ e
            | none => ""))) ∧
    ((∀ c ∈ command.toList, c.isWhitespace) →
       ExecuteCommandTool.Execute run [("command", GoVal.vstr command)] =
         Except.error "empty command") := by
  constructor
  · intro prog rest hsplit
    unfold ExecuteCommandTool.Execute
    simp only [show getStr [("command", GoVal.vstr command)] "command" =
      some command from rfl, hsplit]
  · intro hws
    have hfields : fieldsGo command.toList = [] := by
      have : ∀ cs : List Char, (∀ c ∈ cs, c.isWhitespace) → fieldsGo cs = [] := by
        intro cs
        induction cs with
        | nil => intro _; rfl
        | cons c rest ih =>
            intro h
            unfold fieldsGo
            rw [if_pos (h c (List.mem_cons_self c rest))]
            exact ih (fun d hd => h d (List.mem_cons_of_mem c hd))
      exact this command.toList hws
    unfold ExecuteCommandTool.Execute
    simp only [show getStr [("command", GoVal.vstr command)] "command" =
      some command from rfl,
      show goFields command = (fieldsGo command.toList).map
        (fun w => String.mk w) from rfl,
      hfields, List.map_nil]

theorem ExecuteCommandTool_spec_witness :
    (goFields "git  status" = ["git", "status"]) ∧
    ExecuteCommandTool.Execute
        (fun prog args => (prog ++ " " ++ String.intercalate " " args ++ " out",
          some "exit status 1"))
        [("command", GoVal.vstr "git  status")] =
      Except.ok ("git status out" ++ "\nError: " ++ "exit status 1") ∧
    (∀ c ∈ ("   ".toList), c.isWhitespace) ∧
    ExecuteCommandTool.Execute
        (fun prog args => (prog ++ " " ++ String.intercalate " " args ++ " out",
          some "exit status 1"))
        [("command", GoVal.vstr "   ")] =
      Except.error "empty command" := by
  refine ⟨by decide, ?_, by decide, ?_⟩
  · exact (ExecuteCommandTool_spec
      (fun prog args => (prog ++ " " ++ String.intercalate " " args ++ " out",
        some "exit status 1")) "git  status").1 "git" ["status"] (by decide)
  · exact (ExecuteCommandTool_spec
      (fun prog args => (prog ++ " " ++ String.intercalate " " args ++ " out",
        some "exit status 1")) "   ").2 (by decide)

end AiNovelTools

namespace AiNovelTools

theorem searchWalk_eq (matcher : String → Bool) (showLN : Bool)
    (filePattern : String) (globMatch : String → String → Bool)
    (maxResults : Int) :
    ∀ (files : List SFile) (count : Nat),
    searchWalk matcher showLN filePattern globMatch maxResults files count =
      ((files.filter (isHitFile matcher filePattern globMatch)).take
        (maxResults - count).toNat).map (mkSearchHit matcher showLN) := by
  intro files
  induction files with
  | nil => intro count; simp [searchWalk]
  | cons f rest ih =>
      intro count
      by_cases hcap : maxResults ≤ (count : Int)
      · have h0 : (maxResults - (count : Int)).toNat = 0 := by omega
        simp only [searchWalk]
        rw [if_pos hcap, ih count, h0]
        simp
      · have hsucc : (maxResults - (count : Int)).toNat =
            (maxResults - ((count + 1 : Nat) : Int)).toNat + 1 := by
          push_cast
          omega
        simp only [searchWalk]
        rw [if_neg hcap]
        by_cases hskip : fileSkipped filePattern globMatch f = true
        · rw [if_pos hskip]
          have hhit : ¬ isHitFile matcher filePattern globMatch f = true := by
            unfold isHitFile
            rw [hskip]
            simp
          rw [List.filter_cons_of_neg hhit, ih count]
        · rw [if_neg hskip]
          cases hc : f.content with
          | none =>
              exfalso
              apply hskip
              unfold fileSkipped
              rw [hc]
              simp
          | some c =>
              by_cases hany : (goSplitLines c).any matcher = true
              · have hhit : isHitFile matcher filePattern globMatch f = true := by
                  unfold isHitFile
                  rw [hc]
                  simp only [Bool.not_eq_true] at hskip
                  rw [hskip]
                  simpa using hany
                have hmk : mkSearchHit matcher showLN f =
                    (f.path, scanMatchLines matcher showLN (goSplitLines c) 0 []) := by
                  unfold mkSearchHit
                  rw [hc]
                  rfl
                simp only [hany]
                rw [if_pos trivial, List.filter_cons_of_pos hhit, hsucc,
                  List.take_succ_cons, List.map_cons, ih (count + 1), hmk]
              · have hanyf : (goSplitLines c).any matcher = false := by
                  simpa using hany
                have hhit : ¬ isHitFile matcher filePattern globMatch f = true := by
                  unfold isHitFile
                  rw [hc]
                  simp [hanyf]
                simp only [hanyf]
                rw [if_neg Bool.false_ne_true, List.filter_cons_of_neg hhit,
                  ih count]

end AiNovelTools

namespace AiNovelTools

/-- C6: the search result cap.  In plain-text case-sensitive mode with no
file-pattern filter, whenever at least `max_results` files of the walked
tree are hit files (readable text files with a matching line), the search
tool reports exactly `max_results` file entries, namely the first
`max_results` hit files in walk order, each scanned in full (the entry of
the file that reaches the cap contains its match lines even though the cap
was hit at that file's first match); every later file contributes nothing;
and the output string ends with the truncation note
`（已限制显示前<cap>个结果）` after the found-count summary. -/
theorem SearchTool_cap (regexCompile : String → Except String (String → Bool))
    (globMatch : String → String → Bool) (files : List SFile)
    (query path : String) (cap : Int)
    (hcap : 0 < cap)
    (hmany : cap.toNat ≤ (files.filter (isHitFile
      (fun line => strContains line query) "" globMatch)).length) :
    (searchWalk (fun line => strContains line query) false "" globMatch cap
        files 0).length = cap.toNat ∧
    searchWalk (fun line => strContains line query) false "" globMatch cap
        files 0 =
      ((files.filter (isHitFile (fun line => strContains line query) ""
        globMatch)).take cap.toNat).map
        (mkSearchHit (fun line => strContains line query) false) ∧
    SearchTool.Execute regexCompile globMatch files
        [("query", GoVal.vstr query), ("path", GoVal.vstr path),
         ("case_sensitive", GoVal.vbool true), ("max_results", GoVal.vnum cap)] =
      Except.ok (searchHeader query path false ++
        String.join ((searchWalk (fun line => strContains line query) false ""
          globMatch cap files 0).map renderHit) ++
        ("✅ 共找到 " ++ toString cap.toNat ++ " 个文件包含匹配内容" ++
         "（已限制显示前" ++ toString cap ++ "个结果）")) := by
  have heq := searchWalk_eq (fun line => strContains line query) false ""
    globMatch cap files 0
  rw [show ((0 : Nat) : Int) = 0 from rfl, sub_zero] at heq
  have hlen : (searchWalk (fun line => strContains line query) false ""
      globMatch cap files 0).length = cap.toNat := by
    rw [heq, List.length_map, List.length_take]
    omega
  refine ⟨hlen, heq, ?_⟩
  have hex : SearchTool.Execute regexCompile globMatch files
      [("query", GoVal.vstr query), ("path", GoVal.vstr path),
       ("case_sensitive", GoVal.vbool true), ("max_results", GoVal.vnum cap)] =
      Except.ok (searchRender query path false false "" globMatch
        (fun line => strContains line query) cap files) := by
    unfold SearchTool.Execute
    simp only [show getStr
        [("query", GoVal.vstr query), ("path", GoVal.vstr path),
         ("case_sensitive", GoVal.vbool true), ("max_results", GoVal.vnum cap)]
        "query" = some query from rfl,
      show getStr
        [("query", GoVal.vstr query), ("path", GoVal.vstr path),
         ("case_sensitive", GoVal.vbool true), ("max_results", GoVal.vnum cap)]
        "path" = some path from rfl,
      show getStr
        [("query", GoVal.vstr query), ("path", GoVal.vstr path),
         ("case_sensitive", GoVal.vbool true), ("max_results", GoVal.vnum cap)]
        "file_pattern" = none from rfl,
      show getBoolD
        [("query", GoVal.vstr query), ("path", GoVal.vstr path),
         ("case_sensitive", GoVal.vbool true), ("max_results", GoVal.vnum cap)]
        "use_regex" = false from rfl,
      show getBoolD
        [("query", GoVal.vstr query), ("path", GoVal.vstr path),
         ("case_sensitive", GoVal.vbool true), ("max_results", GoVal.vnum cap)]
        "case_sensitive" = true from rfl,
      show getBoolD
        [("query", GoVal.vstr query), ("path", GoVal.vstr path),
         ("case_sensitive", GoVal.vbool true), ("max_results", GoVal.vnum cap)]
        "show_line_numbers" = false from rfl,
      show getNumD
        [("query", GoVal.vstr query), ("path", GoVal.vstr path),
         ("case_sensitive", GoVal.vbool true), ("max_results", GoVal.vnum cap)]
        "max_results" = cap from rfl,
      Option.getD_some]
    rw [if_neg (show ¬cap = 0 from by omega)]
    simp
  rw [hex]
  simp only [searchRender]
  rw [hlen]
  have hsum : searchSummary cap.toNat cap =
      "✅ 共找到 " ++ toString cap.toNat ++ " 个文件包含匹配内容" ++
        "（已限制显示前" ++ toString cap ++ "个结果）" := by
    unfold searchSummary
    rw [if_neg (show ¬cap.toNat = 0 from by omega),
      if_pos (show cap ≤ (cap.toNat : Int) from by omega)]
    simp only [String.append_assoc]
  rw [hsum]

end AiNovelTools

namespace AiNovelTools

set_option maxHeartbeats 1000000 in
set_option maxRecDepth 4000 in
theorem SearchTool_cap_witness :
    (0 : Int) < 10 ∧
    (10 : Int).toNat ≤ (c6Files.filter (isHitFile
      (fun line => strContains line "q") "" (fun _ _ => true))).length ∧
    (searchWalk (fun line => strContains line "q") false ""
      (fun _ _ => true) 10 c6Files 0).length = (10 : Int).toNat :=
  ⟨by decide, by decide,
   (SearchTool_cap (fun _ => Except.error "re") (fun _ _ => true) c6Files "q"
      "." 10 (by decide) (by decide)).1⟩

end AiNovelTools
